import Mathlib

/-!
Verification development for the PremiumMeter backend.

This file gives a shallow embedding, in Lean 4, of the algorithmic core of the
repository: the Black-Scholes Greeks calculator (`src/services/greeks.py`),
the multi-source stock price router (`src/services/stock_price_service.py`),
the premium query engine (`src/services/query_service.py`), the options
scraper (`src/services/scraper.py`) and the scheduler initialization
(`src/services/scheduler.py`).  Python floats are modelled as real numbers
(`ℝ`) where transcendental functions are involved and as rationals (`ℚ`)
elsewhere; database tables are lists of records; exceptions are modelled with
explicit error results.
-/

namespace PremiumMeter

open MeasureTheory

/-! ## Greeks calculator (`greeks.py`)

`scipy.stats.norm.pdf` / `norm.cdf` are the density and cumulative
distribution function of the standard normal distribution. -/

/-- Standard normal probability density (`scipy.stats.norm.pdf`). -/
noncomputable def normPdf (x : ℝ) : ℝ :=
  Real.exp (-x ^ 2 / 2) / Real.sqrt (2 * Real.pi)

/-- Standard normal cumulative distribution function (`scipy.stats.norm.cdf`). -/
noncomputable def normCdf (x : ℝ) : ℝ :=
  ∫ t in Set.Iic x, normPdf t

lemma normPdf_eq_gaussianPDFReal :
    normPdf = ProbabilityTheory.gaussianPDFReal 0 1 := by
  funext x
  simp only [normPdf, ProbabilityTheory.gaussianPDFReal, NNReal.coe_one, mul_one, sub_zero]
  rw [div_eq_inv_mul]

lemma integrable_normPdf : Integrable normPdf := by
  rw [normPdf_eq_gaussianPDFReal]
  exact ProbabilityTheory.integrable_gaussianPDFReal 0 1

lemma integral_normPdf : ∫ x, normPdf x = 1 := by
  rw [normPdf_eq_gaussianPDFReal]
  exact ProbabilityTheory.integral_gaussianPDFReal_eq_one 0 one_ne_zero

lemma normPdf_neg (x : ℝ) : normPdf (-x) = normPdf x := by
  simp [normPdf, neg_sq]

/-- The standard normal CDF satisfies `Φ x + Φ (-x) = 1`. -/
lemma normCdf_add_normCdf_neg (x : ℝ) : normCdf x + normCdf (-x) = 1 := by
  have h1 : normCdf (-x) = ∫ t in Set.Ioi x, normPdf t := by
    have h2 : (∫ t in Set.Iic (-x), normPdf t) = ∫ t in Set.Iic (-x), normPdf (-t) := by
      refine setIntegral_congr_fun measurableSet_Iic fun t _ => ?_
      exact (normPdf_neg t).symm
    have h3 : (∫ t in Set.Iic (-x), normPdf (-t)) = ∫ t in Set.Ioi (-(-x)), normPdf t :=
      integral_comp_neg_Iic (-x) normPdf
    rw [normCdf, h2, h3, neg_neg]
  rw [normCdf, h1]
  rw [intervalIntegral.integral_Iic_add_Ioi integrable_normPdf.integrableOn
    integrable_normPdf.integrableOn]
  exact integral_normPdf

/-- Result of a Greeks computation: each Greek is either a value or null. -/
structure Greeks where
  delta : Option ℝ
  gamma : Option ℝ
  theta : Option ℝ
  vega : Option ℝ
  rho : Option ℝ

/-- `GreeksCalculator._null_greeks`. -/
def nullGreeks : Greeks :=
  { delta := none, gamma := none, theta := none, vega := none, rho := none }

/-- Python `round(x, 6)`: rounding to six decimal places (real-number model). -/
noncomputable def round6 (x : ℝ) : ℝ :=
  (round (x * 10 ^ 6) : ℤ) / 10 ^ 6

/-- `d1` as computed in `calculate_greeks`. -/
noncomputable def bsD1 (r S K : ℝ) (d : ℤ) (σ : ℝ) : ℝ :=
  (Real.log (S / K) + (r + 0.5 * σ ^ 2) * ((d : ℝ) / 365)) /
    (σ * Real.sqrt ((d : ℝ) / 365))

/-- `d2 = d1 - sigma * sqrt T` as computed in `calculate_greeks`. -/
noncomputable def bsD2 (r S K : ℝ) (d : ℤ) (σ : ℝ) : ℝ :=
  bsD1 r S K d σ - σ * Real.sqrt ((d : ℝ) / 365)

/-- Python `str.lower()` (per-character lowercasing). -/
def pyLower (s : String) : String :=
  ⟨s.data.map Char.toLower⟩

/-- `GreeksCalculator.calculate_greeks`.  Arguments: risk-free rate `r`
(`self.risk_free_rate`), stock price, strike price, days to expiry,
implied volatility, option type string. -/
noncomputable def calculate_greeks (r S K : ℝ) (d : ℤ) (σ : ℝ) (ot : String) : Greeks :=
  if S ≤ 0 ∨ K ≤ 0 then nullGreeks
  else if d ≤ 0 then nullGreeks
  else if σ ≤ 0 then nullGreeks
  else
    let T : ℝ := (d : ℝ) / 365
    if pyLower ot = "call" then
      { delta := some (round6 (normCdf (bsD1 r S K d σ)))
        gamma := some (round6 (normPdf (bsD1 r S K d σ) / (S * σ * Real.sqrt T)))
        theta := some (round6 ((-S * normPdf (bsD1 r S K d σ) * σ / (2 * Real.sqrt T) -
          r * K * Real.exp (-r * T) * normCdf (bsD2 r S K d σ)) / 365))
        vega := some (round6 (S * normPdf (bsD1 r S K d σ) * Real.sqrt T / 100))
        rho := some (round6 (K * T * Real.exp (-r * T) * normCdf (bsD2 r S K d σ) / 100)) }
    else
      { delta := some (round6 (-normCdf (-bsD1 r S K d σ)))
        gamma := some (round6 (normPdf (bsD1 r S K d σ) / (S * σ * Real.sqrt T)))
        theta := some (round6 ((-S * normPdf (bsD1 r S K d σ) * σ / (2 * Real.sqrt T) +
          r * K * Real.exp (-r * T) * normCdf (-bsD2 r S K d σ)) / 365))
        vega := some (round6 (S * normPdf (bsD1 r S K d σ) * Real.sqrt T / 100))
        rho := some (round6 (-K * T * Real.exp (-r * T) * normCdf (-bsD2 r S K d σ) / 100)) }

/-- `GreeksCalculator.calculate_days_to_expiry`. -/
def calculate_days_to_expiry (expiration_date collection_date : ℤ) : ℤ :=
  max 0 (expiration_date - collection_date)

/-- Modelled from the spec (section 4.1): `d1 = (ln(S/K) + (r + σ²/2)T) / (σ√T)`,
with `T = days/365`. -/
noncomputable def specD1 (r S K : ℝ) (d : ℤ) (σ : ℝ) : ℝ :=
  (Real.log (S / K) + (r + σ ^ 2 / 2) * ((d : ℝ) / 365)) /
    (σ * Real.sqrt ((d : ℝ) / 365))

/-- Modelled from the spec (section 4.1): `d2 = d1 − σ√T`. -/
noncomputable def specD2 (r S K : ℝ) (d : ℤ) (σ : ℝ) : ℝ :=
  specD1 r S K d σ - σ * Real.sqrt ((d : ℝ) / 365)

/-- Modelled from the spec (section 4.1): the standard Black-Scholes closed
forms for delta, gamma, theta, vega, rho, with theta converted to per-day
(divide by 365), vega and rho per one percentage point (divide by 100), and
all outputs rounded to six decimal places. -/
noncomputable def greeksSpec (r S K : ℝ) (d : ℤ) (σ : ℝ) (ot : String) : Greeks :=
  let T : ℝ := (d : ℝ) / 365
  if ot = "call" then
    { delta := some (round6 (normCdf (specD1 r S K d σ)))
      gamma := some (round6 (normPdf (specD1 r S K d σ) / (S * σ * Real.sqrt T)))
      theta := some (round6 ((-(S * normPdf (specD1 r S K d σ) * σ) / (2 * Real.sqrt T) -
        r * K * Real.exp (-(r * T)) * normCdf (specD2 r S K d σ)) / 365))
      vega := some (round6 (S * normPdf (specD1 r S K d σ) * Real.sqrt T / 100))
      rho := some (round6 (K * T * Real.exp (-(r * T)) * normCdf (specD2 r S K d σ) / 100)) }
  else
    { delta := some (round6 (-normCdf (-specD1 r S K d σ)))
      gamma := some (round6 (normPdf (specD1 r S K d σ) / (S * σ * Real.sqrt T)))
      theta := some (round6 ((-(S * normPdf (specD1 r S K d σ) * σ) / (2 * Real.sqrt T) +
        r * K * Real.exp (-(r * T)) * normCdf (-specD2 r S K d σ)) / 365))
      vega := some (round6 (S * normPdf (specD1 r S K d σ) * Real.sqrt T / 100))
      rho := some (round6 (-(K * T * Real.exp (-(r * T)) * normCdf (-specD2 r S K d σ)) / 100)) }

lemma specD1_eq_bsD1 (r S K : ℝ) (d : ℤ) (σ : ℝ) :
    specD1 r S K d σ = bsD1 r S K d σ := by
  unfold specD1 bsD1
  norm_num
  ring

lemma specD2_eq_bsD2 (r S K : ℝ) (d : ℤ) (σ : ℝ) :
    specD2 r S K d σ = bsD2 r S K d σ := by
  unfold specD2 bsD2
  rw [specD1_eq_bsD1]

/-- C4: invalid inputs (any of stock price, strike, days to expiry, implied
volatility nonpositive) make `calculate_greeks` return the all-null result.
The embedding is a total function, so no exception can escape. -/
theorem calculate_greeks_invalid_input_null (r S K : ℝ) (d : ℤ) (σ : ℝ) (ot : String)
    (h : S ≤ 0 ∨ K ≤ 0 ∨ d ≤ 0 ∨ σ ≤ 0) :
    calculate_greeks r S K d σ ot = nullGreeks := by
  unfold calculate_greeks
  split_ifs <;> first | rfl | tauto

/-- Witness for C4 at the concrete invalid input `S = -1`. -/
theorem calculate_greeks_invalid_input_null_witness :
    ((-1 : ℝ) ≤ 0 ∨ (100 : ℝ) ≤ 0 ∨ (30 : ℤ) ≤ 0 ∨ (0.2 : ℝ) ≤ 0) ∧
      calculate_greeks 0.045 (-1) 100 30 0.2 "call" = nullGreeks :=
  ⟨Or.inl (by norm_num),
    calculate_greeks_invalid_input_null 0.045 (-1) 100 30 0.2 "call" (Or.inl (by norm_num))⟩

/-- C5: on valid inputs and option type `call` or `put`, `calculate_greeks`
returns exactly the Black-Scholes closed-form values described by the spec
(theta per-day via division by 365, vega and rho per percentage point via
division by 100, all outputs rounded to six decimals). -/
theorem calculate_greeks_black_scholes (r S K : ℝ) (d : ℤ) (σ : ℝ) (ot : String)
    (hS : 0 < S) (hK : 0 < K) (hd : 0 < d) (hσ : 0 < σ)
    (hot : ot = "call" ∨ ot = "put") :
    calculate_greeks r S K d σ ot = greeksSpec r S K d σ ot := by
  have g1 : ¬(S ≤ 0 ∨ K ≤ 0) := by push_neg; exact ⟨hS, hK⟩
  have g2 : ¬(d ≤ 0) := not_le.mpr hd
  have g3 : ¬(σ ≤ 0) := not_le.mpr hσ
  have hcall : pyLower "call" = "call" := rfl
  have hput : pyLower "put" = "put" := rfl
  rcases hot with h | h <;> subst h <;>
    simp only [calculate_greeks, greeksSpec, if_neg g1, if_neg g2, if_neg g3,
      specD1_eq_bsD1, specD2_eq_bsD2, neg_mul, hcall, hput, reduceIte]

/-- Witness for C5 at a concrete valid input. -/
theorem calculate_greeks_black_scholes_witness :
    (0 : ℝ) < 100 ∧ (0 : ℝ) < 95 ∧ (0 : ℤ) < 30 ∧ (0 : ℝ) < 0.2 ∧
      calculate_greeks 0.045 100 95 30 0.2 "call" = greeksSpec 0.045 100 95 30 0.2 "call" :=
  ⟨by norm_num, by norm_num, by norm_num, by norm_num,
    calculate_greeks_black_scholes 0.045 100 95 30 0.2 "call"
      (by norm_num) (by norm_num) (by norm_num) (by norm_num) (Or.inl rfl)⟩

lemma round6_abs_sub (x : ℝ) : |round6 x - x| ≤ 1 / (2 * 10 ^ 6) := by
  have h := abs_sub_round (x * 10 ^ 6)
  have e : round6 x - x = -((x * 10 ^ 6 - ((round (x * 10 ^ 6) : ℤ) : ℝ)) / 10 ^ 6) := by
    rw [round6]; ring
  rw [e, abs_neg, abs_div, abs_of_pos (by norm_num : (0 : ℝ) < 10 ^ 6)]
  have h2 : (1 : ℝ) / (2 * 10 ^ 6) = (1 / 2) / 10 ^ 6 := by norm_num
  rw [h2]
  gcongr

lemma calculate_greeks_call_delta (r S K : ℝ) (d : ℤ) (σ : ℝ)
    (hS : 0 < S) (hK : 0 < K) (hd : 0 < d) (hσ : 0 < σ) :
    (calculate_greeks r S K d σ "call").delta =
      some (round6 (normCdf (bsD1 r S K d σ))) := by
  have g1 : ¬(S ≤ 0 ∨ K ≤ 0) := by push_neg; exact ⟨hS, hK⟩
  simp only [calculate_greeks, if_neg g1, if_neg (not_le.mpr hd), if_neg (not_le.mpr hσ)]
  rfl

lemma calculate_greeks_put_delta (r S K : ℝ) (d : ℤ) (σ : ℝ)
    (hS : 0 < S) (hK : 0 < K) (hd : 0 < d) (hσ : 0 < σ) :
    (calculate_greeks r S K d σ "put").delta =
      some (round6 (-normCdf (-bsD1 r S K d σ))) := by
  have g1 : ¬(S ≤ 0 ∨ K ≤ 0) := by push_neg; exact ⟨hS, hK⟩
  simp only [calculate_greeks, if_neg g1, if_neg (not_le.mpr hd), if_neg (not_le.mpr hσ)]
  rfl

/-- C6: for valid inputs, before rounding the call and put deltas satisfy
`Φ(d1) + Φ(-d1) = 1` exactly, and the rounded deltas returned by
`calculate_greeks` satisfy `call_delta - put_delta ≈ 1` within the
six-decimal rounding tolerance. -/
theorem call_put_delta_parity (r S K : ℝ) (d : ℤ) (σ : ℝ)
    (hS : 0 < S) (hK : 0 < K) (hd : 0 < d) (hσ : 0 < σ) :
    normCdf (bsD1 r S K d σ) + normCdf (-bsD1 r S K d σ) = 1 ∧
      ∀ cd pd : ℝ,
        (calculate_greeks r S K d σ "call").delta = some cd →
        (calculate_greeks r S K d σ "put").delta = some pd →
        |cd - pd - 1| ≤ 1 / 10 ^ 6 := by
  refine ⟨normCdf_add_normCdf_neg _, fun cd pd hc hp => ?_⟩
  rw [calculate_greeks_call_delta r S K d σ hS hK hd hσ, Option.some_inj] at hc
  rw [calculate_greeks_put_delta r S K d σ hS hK hd hσ, Option.some_inj] at hp
  set a := normCdf (bsD1 r S K d σ) with ha
  set b := normCdf (-bsD1 r S K d σ) with hb
  have hab : a + b = 1 := normCdf_add_normCdf_neg _
  have h1 := round6_abs_sub a
  have h2 := round6_abs_sub (-b)
  have e : cd - pd - 1 = (round6 a - a) - (round6 (-b) - -b) := by
    rw [← hc, ← hp, ← hab]; ring
  rw [e]
  calc |round6 a - a - (round6 (-b) - -b)|
      ≤ |round6 a - a| + |round6 (-b) - -b| := abs_sub _ _
    _ ≤ 1 / (2 * 10 ^ 6) + 1 / (2 * 10 ^ 6) := add_le_add h1 h2
    _ = 1 / 10 ^ 6 := by norm_num

/-- Witness for C6 at a concrete valid input. -/
theorem call_put_delta_parity_witness :
    (0 : ℝ) < 100 ∧ (0 : ℝ) < 95 ∧ (0 : ℤ) < 30 ∧ (0 : ℝ) < 0.2 ∧
      (normCdf (bsD1 0.045 100 95 30 0.2) + normCdf (-bsD1 0.045 100 95 30 0.2) = 1 ∧
        ∀ cd pd : ℝ,
          (calculate_greeks 0.045 100 95 30 0.2 "call").delta = some cd →
          (calculate_greeks 0.045 100 95 30 0.2 "put").delta = some pd →
          |cd - pd - 1| ≤ 1 / 10 ^ 6) :=
  ⟨by norm_num, by norm_num, by norm_num, by norm_num,
    call_put_delta_parity 0.045 100 95 30 0.2
      (by norm_num) (by norm_num) (by norm_num) (by norm_num)⟩

/-! ## Price source router (`stock_price_service.py`)

Timestamps are modelled as natural numbers (minutes).  A provider attempt is
modelled by its observable outcome: it raises, or it returns `None`, or it
returns a price. -/

/-- `PriceSource` enum. -/
inductive PriceSource
  | yahoo_finance
  | alpha_vantage
  | finnhub
  | database
deriving DecidableEq

/-- `SourceHealth` state: per-source last success / last failure timestamps,
consecutive failure count, and cooldown expiry (absent when no cooldown). -/
structure SourceHealth where
  last_success : PriceSource → Option ℕ
  last_failure : PriceSource → Option ℕ
  failure_count : PriceSource → ℕ
  cooldown_until : PriceSource → Option ℕ

/-- `SourceHealth.__init__`: empty dictionaries, all failure counts zero. -/
def SourceHealth.init : SourceHealth :=
  { last_success := fun _ => none
    last_failure := fun _ => none
    failure_count := fun _ => 0
    cooldown_until := fun _ => none }

/-- `SourceHealth.record_success`. -/
def record_success (h : SourceHealth) (s : PriceSource) (now : ℕ) : SourceHealth :=
  { h with
    last_success := Function.update h.last_success s (some now)
    failure_count := Function.update h.failure_count s 0
    cooldown_until := Function.update h.cooldown_until s none }

/-- `SourceHealth.record_failure`: increments the failure count and sets a
cooldown of `cooldown_minutes * min(2^(failure_count-1), 8)` minutes. -/
def record_failure (h : SourceHealth) (s : PriceSource) (now cooldown_minutes : ℕ) :
    SourceHealth :=
  let fc := h.failure_count s + 1
  let mult := min (2 ^ (fc - 1)) 8
  { h with
    last_failure := Function.update h.last_failure s (some now)
    failure_count := Function.update h.failure_count s fc
    cooldown_until := Function.update h.cooldown_until s (some (now + cooldown_minutes * mult)) }

/-- `SourceHealth.is_available`, including its lazy deletion of an expired
cooldown entry; returns the availability flag and the updated state. -/
def is_available_upd (h : SourceHealth) (s : PriceSource) (now : ℕ) :
    Bool × SourceHealth :=
  match h.cooldown_until s with
  | none => (true, h)
  | some t =>
    if now ≥ t then
      (true, { h with cooldown_until := Function.update h.cooldown_until s none })
    else
      (false, h)

/-- The fixed priority-ordered provider list used by the router. -/
def priorityList : List PriceSource :=
  [.yahoo_finance, .alpha_vantage, .finnhub]

/-- The list comprehension `[s for s in sources if self.is_available(s)]`,
threading the state mutated by `is_available`. -/
def filter_available (now : ℕ) : List PriceSource → SourceHealth → List PriceSource × SourceHealth
  | [], h => ([], h)
  | s :: rest, h =>
    let p := is_available_upd h s now
    let q := filter_available now rest p.2
    (if p.1 then s :: q.1 else q.1, q.2)

/-- `SourceHealth.get_next_available_sources`: filter out sources in cooldown
and sort the remainder by failure count (stable, so priority order breaks
ties). -/
def get_next_available_sources (h : SourceHealth) (now : ℕ) :
    List PriceSource × SourceHealth :=
  let p := filter_available now priorityList h
  (p.1.insertionSort (fun a b => p.2.failure_count a ≤ p.2.failure_count b), p.2)

/-- Observable outcome of one provider fetch attempt. -/
inductive ProviderOutcome
  | raised
  | returned (price : Option ℚ)
deriving DecidableEq

/-- The `for source in available_sources` loop body of
`StockPriceService.get_live_price`: an exception records a failure and moves
on; a `None` return only logs a warning and moves on; any non-`None` price
records a success and is returned. -/
def try_sources (fetch : PriceSource → ProviderOutcome) (now : ℕ) :
    List PriceSource → SourceHealth → Option (ℚ × PriceSource) × SourceHealth
  | [], h => (none, h)
  | s :: rest, h =>
    match fetch s with
    | .raised => try_sources fetch now rest (record_failure h s now 30)
    | .returned none => try_sources fetch now rest h
    | .returned (some p) => (some (p, s), record_success h s now)

/-- `StockPriceService.get_live_price`: choose the candidate list (the full
priority list when everything is cooling down) and try the candidates in
order. -/
def get_live_price (fetch : PriceSource → ProviderOutcome) (h : SourceHealth) (now : ℕ) :
    Option (ℚ × PriceSource) × SourceHealth :=
  let p := get_next_available_sources h now
  let sources := if p.1.isEmpty then priorityList else p.1
  try_sources fetch now sources p.2

/-- Fetch outcomes where provider 1 raises, provider 2 returns `None` and
provider 3 returns a valid price. -/
def fetchNoneSecond : PriceSource → ProviderOutcome
  | .yahoo_finance => .raised
  | .alpha_vantage => .returned none
  | .finnhub => .returned (some 100)
  | .database => .returned none

/-- Fetch outcomes where provider 1 returns a non-null but nonpositive price. -/
def fetchNegFirst : PriceSource → ProviderOutcome
  | .yahoo_finance => .returned (some (-5))
  | _ => .returned (some 100)

/-- C2 counterexample: (a) a provider that returns `None` (provider 2 here) is
NOT recorded as a failure — its failure count stays 0 and no cooldown is set —
even though the lookup proceeds and returns provider 3's price; (b) a non-null
price ≤ 0 from provider 1 is accepted as a success and returned, rather than
being treated as unusable. -/
theorem get_live_price_c2_counterexample :
    ((get_live_price fetchNoneSecond SourceHealth.init 0).1 = some (100, .finnhub) ∧
      (get_live_price fetchNoneSecond SourceHealth.init 0).2.failure_count .alpha_vantage = 0 ∧
      (get_live_price fetchNoneSecond SourceHealth.init 0).2.cooldown_until .alpha_vantage = none) ∧
    ((get_live_price fetchNegFirst SourceHealth.init 0).1 = some (-5, .yahoo_finance) ∧
      (get_live_price fetchNegFirst SourceHealth.init 0).2.failure_count .yahoo_finance = 0) :=
  ⟨⟨rfl, rfl, rfl⟩, ⟨rfl, rfl⟩⟩

lemma get_next_available_init (now : ℕ) :
    get_next_available_sources SourceHealth.init now = (priorityList, SourceHealth.init) :=
  rfl

lemma get_live_price_init (fetch : PriceSource → ProviderOutcome) (now : ℕ) :
    get_live_price fetch SourceHealth.init now =
      try_sources fetch now priorityList SourceHealth.init :=
  rfl

/-- C2 (amended): a provider attempt that raises is recorded as a failure
(failure count incremented, cooldown set) before the router proceeds to the
next candidate; for three providers where the first two raise and the third
returns a valid price, the lookup returns the third provider's value and
providers 1 and 2 each have a failure recorded. -/
theorem get_live_price_third_succeeds (fetch : PriceSource → ProviderOutcome)
    (v : ℚ) (now : ℕ)
    (h1 : fetch .yahoo_finance = .raised)
    (h2 : fetch .alpha_vantage = .raised)
    (h3 : fetch .finnhub = .returned (some v)) :
    (get_live_price fetch SourceHealth.init now).1 = some (v, .finnhub) ∧
      (get_live_price fetch SourceHealth.init now).2.failure_count .yahoo_finance = 1 ∧
      (get_live_price fetch SourceHealth.init now).2.failure_count .alpha_vantage = 1 ∧
      (get_live_price fetch SourceHealth.init now).2.cooldown_until .yahoo_finance = some (now + 30) ∧
      (get_live_price fetch SourceHealth.init now).2.cooldown_until .alpha_vantage = some (now + 30) ∧
      (get_live_price fetch SourceHealth.init now).2.failure_count .finnhub = 0 := by
  rw [get_live_price_init]
  simp only [priorityList, try_sources, h1, h2, h3]
  simp [record_success, record_failure, SourceHealth.init, Function.update]

/-- Witness for the amended C2 at a concrete fetch assignment. -/
theorem get_live_price_third_succeeds_witness :
    (get_live_price (fun s => match s with
        | .finnhub => .returned (some 42)
        | _ => .raised) SourceHealth.init 7).1 = some (42, .finnhub) ∧
      (get_live_price (fun s => match s with
        | .finnhub => .returned (some 42)
        | _ => .raised) SourceHealth.init 7).2.failure_count .yahoo_finance = 1 ∧
      (get_live_price (fun s => match s with
        | .finnhub => .returned (some 42)
        | _ => .raised) SourceHealth.init 7).2.failure_count .alpha_vantage = 1 ∧
      (get_live_price (fun s => match s with
        | .finnhub => .returned (some 42)
        | _ => .raised) SourceHealth.init 7).2.cooldown_until .yahoo_finance = some (7 + 30) ∧
      (get_live_price (fun s => match s with
        | .finnhub => .returned (some 42)
        | _ => .raised) SourceHealth.init 7).2.cooldown_until .alpha_vantage = some (7 + 30) ∧
      (get_live_price (fun s => match s with
        | .finnhub => .returned (some 42)
        | _ => .raised) SourceHealth.init 7).2.failure_count .finnhub = 0 :=
  get_live_price_third_succeeds _ 42 7 rfl rfl rfl

lemma is_available_upd_cooldown_other (h : SourceHealth) (a s : PriceSource) (now : ℕ)
    (hne : s ≠ a) :
    (is_available_upd h a now).2.cooldown_until s = h.cooldown_until s := by
  unfold is_available_upd
  cases hc : h.cooldown_until a with
  | none => rfl
  | some t =>
    by_cases hge : now ≥ t
    · simp only [if_pos hge]
      exact Function.update_noteq hne none h.cooldown_until
    · simp only [if_neg hge]

lemma filter_available_not_mem (now : ℕ) (l : List PriceSource) (h : SourceHealth)
    (s : PriceSource) (u : ℕ) (hc : h.cooldown_until s = some u) (ht : now < u) :
    s ∉ (filter_available now l h).1 ∧
      (filter_available now l h).2.cooldown_until s = some u := by
  induction l generalizing h with
  | nil => exact ⟨List.not_mem_nil s, hc⟩
  | cons a rest ih =>
    by_cases has : s = a
    · subst has
      have hp : is_available_upd h s now = (false, h) := by
        unfold is_available_upd
        rw [hc]
        simp [not_le.mpr ht]
      unfold filter_available
      rw [hp]
      simpa using ih h hc
    · have hcd : (is_available_upd h a now).2.cooldown_until s = some u := by
        rw [is_available_upd_cooldown_other h a s now has, hc]
      obtain ⟨hm, hc2⟩ := ih (is_available_upd h a now).2 hcd
      unfold filter_available
      refine ⟨?_, hc2⟩
      by_cases hb : (is_available_upd h a now).1 <;> simp [hb, has, hm]

/-- C7: the source-health protocol.  (1) Recording a failure increments the
failure count and sets the cooldown expiry to
`now + cooldown_minutes * min(2^(failure_count−1), 8)` computed with the new
count; (2) while the cooldown has not expired the source is excluded from the
selection list; (3) when the selection list is empty (every provider cooling
down) the lookup retries the full ordered priority list; (4) a single success
resets the failure count to 0 and clears the cooldown. -/
theorem source_health_protocol :
    (∀ (h : SourceHealth) (s : PriceSource) (now cm : ℕ),
        (record_failure h s now cm).failure_count s = h.failure_count s + 1 ∧
        (record_failure h s now cm).cooldown_until s =
          some (now + cm * min (2 ^ ((record_failure h s now cm).failure_count s - 1)) 8)) ∧
    (∀ (h : SourceHealth) (s : PriceSource) (now u : ℕ),
        h.cooldown_until s = some u → now < u →
        s ∉ (get_next_available_sources h now).1) ∧
    (∀ (fetch : PriceSource → ProviderOutcome) (h : SourceHealth) (now : ℕ),
        (get_next_available_sources h now).1 = [] →
        get_live_price fetch h now =
          try_sources fetch now priorityList (get_next_available_sources h now).2) ∧
    (∀ (h : SourceHealth) (s : PriceSource) (now : ℕ),
        (record_success h s now).failure_count s = 0 ∧
        (record_success h s now).cooldown_until s = none) := by
  refine ⟨fun h s now cm => ⟨?_, ?_⟩, fun h s now u hc ht => ?_, fun fetch h now he => ?_,
    fun h s now => ⟨?_, ?_⟩⟩
  · simp [record_failure, Function.update]
  · simp [record_failure, Function.update]
  · unfold get_next_available_sources
    intro hmem
    have hperm := List.perm_insertionSort
      (fun a b => (filter_available now priorityList h).2.failure_count a ≤
        (filter_available now priorityList h).2.failure_count b)
      (filter_available now priorityList h).1
    have := hperm.mem_iff.mp hmem
    exact (filter_available_not_mem now priorityList h s u hc ht).1 this
  · show (let p := get_next_available_sources h now
      let sources := if p.1.isEmpty then priorityList else p.1
      try_sources fetch now sources p.2) =
        try_sources fetch now priorityList (get_next_available_sources h now).2
    simp only [he, List.isEmpty_nil, if_pos]
  · simp [record_success, Function.update]
  · simp [record_success, Function.update]

/-- Witness for C7 at concrete inputs: one failure at time 0 with a 30-minute
base cooldown cools yahoo down until minute 30; at minute 29 yahoo is excluded
from selection; a success immediately resets the count and clears the
cooldown. -/
theorem source_health_protocol_witness :
    (record_failure SourceHealth.init .yahoo_finance 0 30).failure_count .yahoo_finance = 0 + 1 ∧
      (record_failure SourceHealth.init .yahoo_finance 0 30).cooldown_until .yahoo_finance =
        some 30 ∧
      PriceSource.yahoo_finance ∉
        (get_next_available_sources (record_failure SourceHealth.init .yahoo_finance 0 30) 29).1 ∧
      (record_success (record_failure SourceHealth.init .yahoo_finance 0 30)
          .yahoo_finance 29).failure_count .yahoo_finance = 0 ∧
      (record_success (record_failure SourceHealth.init .yahoo_finance 0 30)
          .yahoo_finance 29).cooldown_until .yahoo_finance = none :=
  ⟨(source_health_protocol.1 SourceHealth.init .yahoo_finance 0 30).1,
    (source_health_protocol.1 SourceHealth.init .yahoo_finance 0 30).2,
    source_health_protocol.2.1 (record_failure SourceHealth.init .yahoo_finance 0 30)
      .yahoo_finance 29 30 rfl (by decide),
    (source_health_protocol.2.2.2 (record_failure SourceHealth.init .yahoo_finance 0 30)
      .yahoo_finance 29).1,
    (source_health_protocol.2.2.2 (record_failure SourceHealth.init .yahoo_finance 0 30)
      .yahoo_finance 29).2⟩

/-! ## Data model (`historical_premium_record.py`, `stock.py`)

Decimal/float columns are modelled as rationals, dates and timestamps as
integers. -/

/-- `OptionType` enum of the data model. -/
inductive OptionTypeE
  | call
  | put
deriving DecidableEq

/-- `ContractStatus` enum. -/
inductive ContractStatus
  | active
  | expired
deriving DecidableEq

/-- `HistoricalPremiumRecord` row. -/
structure PremiumRecord where
  record_id : ℕ
  stock_id : ℕ
  option_type : OptionTypeE
  strike_price : ℚ
  expiration_date : ℤ
  premium : ℚ
  stock_price_at_collection : ℚ
  implied_volatility : Option ℚ
  delta : Option ℚ
  gamma : Option ℚ
  theta : Option ℚ
  vega : Option ℚ
  rho : Option ℚ
  volume : Option ℤ
  open_interest : Option ℤ
  contract_status : ContractStatus
  days_to_expiry : ℤ
  data_source : String
  scraper_run_id : String
  collection_timestamp : ℤ
deriving DecidableEq

/-- `Stock` row (the fields the query service touches). -/
structure StockRow where
  stock_id : ℕ
  ticker : String
deriving DecidableEq

/-! ## Query engine (`query_service.py`) -/

/-- `PremiumQueryRequest` (the fields the query service reads). -/
structure QueryRequest where
  ticker : String
  option_type : OptionTypeE
  strike_mode : String
  strike_price : Option ℚ
  strike_range_percent : Option ℚ
  nearest_count_above : Option ℤ
  nearest_count_below : Option ℤ
  duration_days : Option ℤ
  duration_tolerance_days : ℤ
  lookback_days : ℤ

/-- The base query of `query_premium_statistics`: restrict to the resolved
stock, the requested option type and the lookback time window, then apply the
duration window when a target duration was specified. -/
def baseFiltered (db : List PremiumRecord) (stockId : ℕ) (req : QueryRequest) (now : ℤ) :
    List PremiumRecord :=
  let start := now - req.lookback_days
  let base := db.filter fun r =>
    r.stock_id == stockId && r.option_type == req.option_type &&
      decide (start ≤ r.collection_timestamp) && decide (r.collection_timestamp ≤ now)
  match req.duration_days with
  | none => base
  | some dd =>
    base.filter fun r =>
      decide (dd - req.duration_tolerance_days ≤ r.days_to_expiry) &&
        decide (r.days_to_expiry ≤ dd + req.duration_tolerance_days)

/-- `QueryService._get_range_strikes`: the distinct strikes of the WHOLE
`historical_premium_record` table (the query is built on `self.db.query`, not
on the filtered base query) lying within ±`range_percent`% of the target. -/
def get_range_strikes (db : List PremiumRecord) (target : ℚ) (range_percent : ℚ) :
    List ℚ :=
  let m := range_percent / 100
  let minS := target * (1 - m)
  let maxS := target * (1 + m)
  ((db.filter fun r => decide (minS ≤ r.strike_price) && decide (r.strike_price ≤ maxS)).map
    (fun r => r.strike_price)).dedup

/-- `base_query.order_by(collection_timestamp.desc()).first()`: the first
record with maximal collection timestamp. -/
def mostRecent : List PremiumRecord → Option PremiumRecord
  | [] => none
  | r :: rs =>
    match mostRecent rs with
    | none => some r
    | some m => if m.collection_timestamp > r.collection_timestamp then some m else some r

/-- Truthiness-guarded slice count: `count` and `count > 0` then `[:count]`. -/
def toCount : Option ℤ → ℕ
  | none => 0
  | some n => if 0 < n then n.toNat else 0

/-- `QueryService._get_nearest_strikes`. -/
def get_nearest_strikes (filtered : List PremiumRecord)
    (count_above count_below : Option ℤ) : List ℚ :=
  match mostRecent filtered with
  | none => []
  | some r =>
    let current := r.stock_price_at_collection
    let all_strikes :=
      ((filtered.map fun x => x.strike_price).dedup).insertionSort (fun a b => a ≤ b)
    if all_strikes.isEmpty then []
    else
      let above := (all_strikes.filter fun s => decide (current < s)).take (toCount count_above)
      let below :=
        ((all_strikes.reverse).filter fun s => decide (s < current)).take (toCount count_below)
      ((above ++ below).dedup).insertionSort (fun a b => a ≤ b)

/-- One row of `_aggregate_statistics` (the `PremiumStatistics` payload). -/
structure PremiumStat where
  strike_price : ℚ
  min_premium : ℚ
  max_premium : ℚ
  avg_premium : ℚ
  median_premium : ℚ
  std_premium : ℝ
  avg_delta : Option ℚ
  avg_gamma : Option ℚ
  avg_theta : Option ℚ
  avg_vega : Option ℚ
  data_points : ℕ
  first_seen : ℤ
  last_seen : ℤ

/-- Mean of a list of rationals, `None` when the list is empty
(`sum(xs)/len(xs) if xs else None`). -/
def optMean (xs : List ℚ) : Option ℚ :=
  if xs.isEmpty then none else some (xs.sum / (xs.length : ℚ))

/-- The statistics computed for one strike from its (nonempty) record list. -/
noncomputable def mkStat (s : ℚ) (p : PremiumRecord) (ps : List PremiumRecord) : PremiumStat :=
  let records := p :: ps
  let premiums := records.map fun r => r.premium
  let mean := premiums.sum / (premiums.length : ℚ)
  let sorted := premiums.insertionSort (fun a b => a ≤ b)
  let n := premiums.length
  let median :=
    if n % 2 == 0 then (sorted.getD (n / 2 - 1) 0 + sorted.getD (n / 2) 0) / 2
    else sorted.getD (n / 2) 0
  let variance := ((premiums.map fun q => (q - mean) ^ 2).sum) / (premiums.length : ℚ)
  let timestamps := records.map fun r => r.collection_timestamp
  { strike_price := s
    min_premium := premiums.foldl min p.premium
    max_premium := premiums.foldl max p.premium
    avg_premium := mean
    median_premium := median
    std_premium := Real.sqrt (variance : ℝ)
    avg_delta := optMean (records.filterMap fun r => r.delta)
    avg_gamma := optMean (records.filterMap fun r => r.gamma)
    avg_theta := optMean (records.filterMap fun r => r.theta)
    avg_vega := optMean (records.filterMap fun r => r.vega)
    data_points := records.length
    first_seen := timestamps.foldl min p.collection_timestamp
    last_seen := timestamps.foldl max p.collection_timestamp }

/-- `QueryService._aggregate_statistics`: for each candidate strike, collect
the filtered records at that strike, skip the strike when none match,
aggregate otherwise; sort ascending by strike. -/
noncomputable def aggregate_statistics (filtered : List PremiumRecord)
    (strikes : List ℚ) : List PremiumStat :=
  if strikes.isEmpty then []
  else
    (strikes.filterMap fun s =>
      match filtered.filter (fun r => r.strike_price == s) with
      | [] => none
      | p :: ps => some (mkStat s p ps)).insertionSort
        (fun a b => a.strike_price ≤ b.strike_price)

/-- Python `str.upper()` (per-character uppercasing). -/
def pyUpper (s : String) : String :=
  ⟨s.data.map Char.toUpper⟩

/-- `self.db.query(Stock).filter(Stock.ticker == request.ticker.upper()).first()`. -/
def findStock (stocks : List StockRow) (ticker : String) : Option StockRow :=
  stocks.find? fun st => st.ticker == pyUpper ticker

/-- `PremiumQueryResponse` (the fields the query service computes). -/
structure QueryResponse where
  ticker : String
  option_type : OptionTypeE
  strike_mode : String
  results : List PremiumStat
  total_strikes : ℕ
  total_data_points : ℕ

/-- `QueryService.query_premium_statistics`.  A missing required parameter for
the selected strike mode is rejected before reaching the service by the
pydantic validators on `PremiumQueryRequest`; this appears here as an error
result. -/
noncomputable def query_premium_statistics (stocks : List StockRow)
    (db : List PremiumRecord) (req : QueryRequest) (now : ℤ) :
    Except String QueryResponse :=
  match findStock stocks req.ticker with
  | none => .error "Stock ticker not found in database"
  | some stock =>
    let filtered := baseFiltered db stock.stock_id req now
    let strikesE : Except String (List ℚ) :=
      if req.strike_mode = "exact" then
        match req.strike_price with
        | some sp => .ok [sp]
        | none => .error "strike_price is required for exact mode"
      else if req.strike_mode = "percentage_range" then
        match req.strike_price, req.strike_range_percent with
        | some t, some p => .ok (get_range_strikes db t p)
        | _, _ => .error "strike_price and strike_range_percent are required"
      else if req.strike_mode = "nearest" then
        .ok (get_nearest_strikes filtered req.nearest_count_above req.nearest_count_below)
      else .error "Invalid strike_mode"
    match strikesE with
    | .error e => .error e
    | .ok strikes =>
      let stats := aggregate_statistics filtered strikes
      .ok { ticker := pyUpper req.ticker
            option_type := req.option_type
            strike_mode := req.strike_mode
            results := stats
            total_strikes := stats.length
            total_data_points := (stats.map fun st => st.data_points).sum }

/-- The strike set of a query's result list (observer). -/
noncomputable def resultStrikes (stocks : List StockRow) (db : List PremiumRecord)
    (req : QueryRequest) (now : ℤ) : List ℚ :=
  match query_premium_statistics stocks db req now with
  | .ok resp => resp.results.map fun st => st.strike_price
  | .error _ => []

lemma mkStat_strike_price (s : ℚ) (p : PremiumRecord) (ps : List PremiumRecord) :
    (mkStat s p ps).strike_price = s :=
  rfl

lemma mem_aggregate_core (filtered : List PremiumRecord) (strikes : List ℚ) (s : ℚ) :
    s ∈ (strikes.filterMap fun t =>
        match filtered.filter (fun r => r.strike_price == t) with
        | [] => none
        | p :: ps => some (mkStat t p ps)).map (fun st => st.strike_price) ↔
      s ∈ strikes ∧ filtered.filter (fun r => r.strike_price == s) ≠ [] := by
  induction strikes with
  | nil => simp
  | cons a rest ih =>
    rw [List.filterMap_cons]
    cases hf : filtered.filter (fun r => r.strike_price == a) with
    | nil =>
      rw [ih]
      constructor
      · rintro ⟨hm, hne⟩
        exact ⟨List.mem_cons_of_mem a hm, hne⟩
      · rintro ⟨hm, hne⟩
        rcases List.mem_cons.mp hm with h | h
        · rw [h] at hne
          exact absurd hf hne
        · exact ⟨h, hne⟩
    | cons p ps =>
      rw [List.map_cons, List.mem_cons, mkStat_strike_price, ih]
      constructor
      · rintro (h | ⟨hm, hne⟩)
        · refine ⟨by rw [h]; exact List.mem_cons_self a rest, ?_⟩
          rw [h, hf]
          simp
        · exact ⟨List.mem_cons_of_mem a hm, hne⟩
      · rintro ⟨hm, hne⟩
        rcases List.mem_cons.mp hm with h | h
        · exact Or.inl h
        · exact Or.inr ⟨h, hne⟩

lemma mem_aggregate_strikes (filtered : List PremiumRecord) (strikes : List ℚ) (s : ℚ) :
    s ∈ (aggregate_statistics filtered strikes).map (fun st => st.strike_price) ↔
      s ∈ strikes ∧ filtered.filter (fun r => r.strike_price == s) ≠ [] := by
  unfold aggregate_statistics
  by_cases he : strikes.isEmpty
  · rw [if_pos he, List.isEmpty_iff.mp he]
    simp
  · rw [if_neg he]
    constructor
    · intro hmem
      rw [List.mem_map] at hmem
      obtain ⟨st, hst, hf⟩ := hmem
      have hst2 := (List.perm_insertionSort _ _).mem_iff.mp hst
      exact (mem_aggregate_core filtered strikes s).mp (List.mem_map.mpr ⟨st, hst2, hf⟩)
    · intro hrhs
      have h2 := (mem_aggregate_core filtered strikes s).mpr hrhs
      rw [List.mem_map] at h2 ⊢
      obtain ⟨st, hst, hf⟩ := h2
      exact ⟨st, (List.perm_insertionSort _ _).mem_iff.mpr hst, hf⟩

lemma mem_get_range_strikes (db : List PremiumRecord) (t p s : ℚ) :
    s ∈ get_range_strikes db t p ↔
      t * (1 - p / 100) ≤ s ∧ s ≤ t * (1 + p / 100) ∧ ∃ r ∈ db, r.strike_price = s := by
  unfold get_range_strikes
  simp only [List.mem_dedup, List.mem_map, List.mem_filter, Bool.and_eq_true,
    decide_eq_true_eq]
  constructor
  · rintro ⟨r, ⟨hr, h1, h2⟩, rfl⟩
    exact ⟨h1, h2, r, hr, rfl⟩
  · rintro ⟨h1, h2, r, hr, rfl⟩
    exact ⟨r, ⟨hr, h1, h2⟩, rfl⟩

lemma baseFiltered_subset (db : List PremiumRecord) (stockId : ℕ) (req : QueryRequest)
    (now : ℤ) (r : PremiumRecord) (hr : r ∈ baseFiltered db stockId req now) : r ∈ db := by
  unfold baseFiltered at hr
  cases hd : req.duration_days with
  | none =>
    rw [hd] at hr
    exact List.mem_of_mem_filter hr
  | some dd =>
    rw [hd] at hr
    exact List.mem_of_mem_filter (List.mem_of_mem_filter hr)

lemma resultStrikes_range_eq (stocks : List StockRow) (db : List PremiumRecord)
    (req : QueryRequest) (now : ℤ) (stock : StockRow) (t p : ℚ)
    (hmode : req.strike_mode = "percentage_range")
    (ht : req.strike_price = some t) (hp : req.strike_range_percent = some p)
    (hstock : findStock stocks req.ticker = some stock) :
    resultStrikes stocks db req now =
      (aggregate_statistics (baseFiltered db stock.stock_id req now)
        (get_range_strikes db t p)).map (fun st => st.strike_price) := by
  unfold resultStrikes query_premium_statistics
  rw [hstock, hmode, ht, hp]
  rfl

/-- C3: for a percentage-range query (with the ticker resolving), the returned
strike set consists exactly of the strikes `s` with
`target*(1−P/100) ≤ s ≤ target*(1+P/100)` (bounds inclusive) for which some
record of the base-filtered data (requested ticker, option type, lookback
window, duration window) has strike `s` — strikes of other instruments or of
records outside the filters never contribute a result row. -/
theorem range_query_strike_set (stocks : List StockRow) (db : List PremiumRecord)
    (req : QueryRequest) (now : ℤ) (stock : StockRow) (t p : ℚ)
    (hmode : req.strike_mode = "percentage_range")
    (ht : req.strike_price = some t) (hp : req.strike_range_percent = some p)
    (hstock : findStock stocks req.ticker = some stock) (s : ℚ) :
    s ∈ resultStrikes stocks db req now ↔
      t * (1 - p / 100) ≤ s ∧ s ≤ t * (1 + p / 100) ∧
        ∃ r ∈ baseFiltered db stock.stock_id req now, r.strike_price = s := by
  rw [resultStrikes_range_eq stocks db req now stock t p hmode ht hp hstock]
  rw [mem_aggregate_strikes, mem_get_range_strikes]
  have hfil : (baseFiltered db stock.stock_id req now).filter
      (fun r => r.strike_price == s) ≠ [] ↔
      ∃ r ∈ baseFiltered db stock.stock_id req now, r.strike_price = s := by
    rw [ne_eq, List.filter_eq_nil_iff]
    push_neg
    simp [beq_iff_eq]
  constructor
  · rintro ⟨⟨h1, h2, -⟩, hne⟩
    exact ⟨h1, h2, hfil.mp hne⟩
  · rintro ⟨h1, h2, r, hr, hs⟩
    refine ⟨⟨h1, h2, r, baseFiltered_subset db stock.stock_id req now r hr, hs⟩, ?_⟩
    exact hfil.mpr ⟨r, hr, hs⟩

/-- A premium record with given id, stock, option type, strike, timestamp and
underlying price (other fields fixed). -/
def mkRec (id sid : ℕ) (ot : OptionTypeE) (strike : ℚ) (ts : ℤ) (sp : ℚ) : PremiumRecord :=
  { record_id := id
    stock_id := sid
    option_type := ot
    strike_price := strike
    expiration_date := 100
    premium := 5
    stock_price_at_collection := sp
    implied_volatility := none
    delta := none
    gamma := none
    theta := none
    vega := none
    rho := none
    volume := none
    open_interest := none
    contract_status := .active
    days_to_expiry := 10
    data_source := "yahoo_finance"
    scraper_run_id := "run1"
    collection_timestamp := ts }

/-- Stocks table for the examples. -/
def exStocks : List StockRow :=
  [{ stock_id := 1, ticker := "XYZ" }]

/-- Dataset for the C3 example: stock 1 has strikes 85, 90, 95, 105, 115 in
the window; stock 2 has an in-range strike 100; stock 1 also has an in-range
strike 102 outside the lookback window. -/
def exDbRange : List PremiumRecord :=
  [mkRec 1 1 .call 85 5 100, mkRec 2 1 .call 90 5 100, mkRec 3 1 .call 95 5 100,
    mkRec 4 1 .call 105 5 100, mkRec 5 1 .call 115 5 100,
    mkRec 6 2 .call 100 5 100, mkRec 7 1 .call 102 (-50) 100]

/-- The C3 example request: percentage_range, target 100, range 10%. -/
def exReqRange : QueryRequest :=
  { ticker := "XYZ"
    option_type := .call
    strike_mode := "percentage_range"
    strike_price := some 100
    strike_range_percent := some 10
    nearest_count_above := none
    nearest_count_below := none
    duration_days := none
    duration_tolerance_days := 3
    lookback_days := 30 }

/-- Witness for C3: the concrete spec example.  Over strikes
{85, 90, 95, 105, 115} (plus decoys from another instrument and outside the
window) a target of 100 with a 10% range yields exactly {90, 95, 105}. -/
theorem range_query_strike_set_witness :
    exReqRange.strike_mode = "percentage_range" ∧
      exReqRange.strike_price = some 100 ∧
      exReqRange.strike_range_percent = some 10 ∧
      findStock exStocks exReqRange.ticker = some { stock_id := 1, ticker := "XYZ" } ∧
      ((95 : ℚ) ∈ resultStrikes exStocks exDbRange exReqRange 10 ↔
        (100 : ℚ) * (1 - 10 / 100) ≤ 95 ∧ (95 : ℚ) ≤ 100 * (1 + 10 / 100) ∧
          ∃ r ∈ baseFiltered exDbRange 1 exReqRange 10, r.strike_price = 95) ∧
      resultStrikes exStocks exDbRange exReqRange 10 = [90, 95, 105] :=
  ⟨rfl, rfl, rfl, rfl,
    range_query_strike_set exStocks exDbRange exReqRange 10
      { stock_id := 1, ticker := "XYZ" } 100 10 rfl rfl rfl rfl 95,
    by
      rw [resultStrikes_range_eq exStocks exDbRange exReqRange 10
        { stock_id := 1, ticker := "XYZ" } 100 10 rfl rfl rfl rfl]
      have hr : get_range_strikes exDbRange 100 10 = [90, 95, 105, 100, 102] := by
        norm_num [get_range_strikes, exDbRange, mkRec]
      rw [hr]
      rfl⟩

/-- Modelled from the spec (§4.5, nearest mode): from the distinct strikes
present in the filtered data, the `n` lowest strictly above the reference and
the `m` highest strictly below it; the result is the union, sorted
ascending. -/
def nearestStrikesSpec (strikes : List ℚ) (ref : ℚ) (n m : ℕ) : List ℚ :=
  let above := ((strikes.filter fun s => decide (ref < s)).insertionSort
    (fun a b => a ≤ b)).take n
  let below := ((strikes.filter fun s => decide (s < ref)).insertionSort
    (fun a b => b ≤ a)).take m
  ((above ++ below).dedup).insertionSort (fun a b => a ≤ b)

lemma filter_insertionSort_comm (l : List ℚ) (pred : ℚ → Bool) :
    (l.insertionSort (fun a b => a ≤ b)).filter pred =
      (l.filter pred).insertionSort (fun a b => a ≤ b) := by
  haveI : IsAntisymm ℚ (fun a b : ℚ => a ≤ b) := ⟨fun a b h1 h2 => le_antisymm h1 h2⟩
  haveI : IsTotal ℚ (fun a b : ℚ => a ≤ b) := ⟨fun a b => le_total a b⟩
  haveI : IsTrans ℚ (fun a b : ℚ => a ≤ b) := ⟨fun a b c h1 h2 => le_trans h1 h2⟩
  have hp : List.Perm ((l.insertionSort (fun a b => a ≤ b)).filter pred)
      ((l.filter pred).insertionSort (fun a b => a ≤ b)) :=
    ((List.perm_insertionSort _ l).filter pred).trans
      (List.perm_insertionSort _ _).symm
  have hs1 : List.Sorted (fun a b : ℚ => a ≤ b)
      ((l.insertionSort (fun a b => a ≤ b)).filter pred) :=
    List.Pairwise.sublist (List.filter_sublist _) (List.sorted_insertionSort _ l)
  have hs2 : List.Sorted (fun a b : ℚ => a ≤ b)
      ((l.filter pred).insertionSort (fun a b => a ≤ b)) :=
    List.sorted_insertionSort _ _
  exact List.eq_of_perm_of_sorted hp hs1 hs2

lemma reverse_filter_insertionSort (l : List ℚ) (pred : ℚ → Bool) :
    ((l.insertionSort (fun a b => a ≤ b)).reverse).filter pred =
      (l.filter pred).insertionSort (fun a b => b ≤ a) := by
  haveI : IsAntisymm ℚ (fun a b : ℚ => b ≤ a) := ⟨fun a b h1 h2 => le_antisymm h2 h1⟩
  haveI : IsTotal ℚ (fun a b : ℚ => b ≤ a) := ⟨fun a b => le_total b a⟩
  haveI : IsTrans ℚ (fun a b : ℚ => b ≤ a) := ⟨fun a b c h1 h2 => le_trans h2 h1⟩
  haveI : IsTotal ℚ (fun a b : ℚ => a ≤ b) := ⟨fun a b => le_total a b⟩
  haveI : IsTrans ℚ (fun a b : ℚ => a ≤ b) := ⟨fun a b c h1 h2 => le_trans h1 h2⟩
  have hp : List.Perm (((l.insertionSort (fun a b => a ≤ b)).reverse).filter pred)
      ((l.filter pred).insertionSort (fun a b => b ≤ a)) :=
    (((List.reverse_perm _).filter pred).trans
      ((List.perm_insertionSort _ l).filter pred)).trans
      (List.perm_insertionSort _ _).symm
  have hs1 : List.Sorted (fun a b : ℚ => b ≤ a)
      (((l.insertionSort (fun a b => a ≤ b)).reverse).filter pred) := by
    refine List.Pairwise.sublist (List.filter_sublist _) ?_
    exact (List.pairwise_reverse).mpr (List.sorted_insertionSort _ l)
  have hs2 : List.Sorted (fun a b : ℚ => b ≤ a)
      ((l.filter pred).insertionSort (fun a b => b ≤ a)) :=
    List.sorted_insertionSort _ _
  exact List.eq_of_perm_of_sorted hp hs1 hs2

/-- C8: the nearest-mode strike selection returns, when some record matches
the filters, exactly the union of the `count_above` lowest distinct strikes
strictly above the reference (the most recent matching record's underlying
price) and the `count_below` highest distinct strikes strictly below it,
drawn from the distinct strikes of the filtered data and sorted ascending;
when no record matches the filters, the result is empty. -/
theorem nearest_strike_selection (filtered : List PremiumRecord) (ca cb : Option ℤ) :
    (mostRecent filtered = none → get_nearest_strikes filtered ca cb = []) ∧
      ∀ r, mostRecent filtered = some r →
        get_nearest_strikes filtered ca cb =
          nearestStrikesSpec ((filtered.map fun x => x.strike_price).dedup)
            r.stock_price_at_collection (toCount ca) (toCount cb) := by
  constructor
  · intro h
    unfold get_nearest_strikes
    rw [h]
  · intro r h
    unfold get_nearest_strikes nearestStrikesSpec
    rw [h]
    simp only []
    by_cases he :
      ((((filtered.map fun x => x.strike_price).dedup).insertionSort
        (fun a b => a ≤ b)).isEmpty : Bool)
    · rw [if_pos he]
      have hD0 : (filtered.map fun x => x.strike_price).dedup = [] := by
        have hp := List.perm_insertionSort (fun a b : ℚ => a ≤ b)
          ((filtered.map fun x => x.strike_price).dedup)
        rw [List.isEmpty_iff.mp he] at hp
        exact (hp.symm).eq_nil
      rw [hD0]
      simp
    · rw [if_neg he]
      rw [filter_insertionSort_comm, reverse_filter_insertionSort]

/-- Dataset for the C8 example: distinct strikes {80, 90, 95, 105, 110, 120},
most recent record carries underlying price 100. -/
def exDbNearest : List PremiumRecord :=
  [mkRec 1 1 .call 80 1 100, mkRec 2 1 .call 90 2 100, mkRec 3 1 .call 95 3 100,
    mkRec 4 1 .call 105 4 100, mkRec 5 1 .call 110 5 100, mkRec 6 1 .call 120 6 100]

/-- Witness for C8: the concrete spec example.  Reference price 100,
`count_above = 2`, `count_below = 1` over strikes {80, 90, 95, 105, 110, 120}
yields exactly [95, 105, 110], sorted ascending. -/
theorem nearest_strike_selection_witness :
    mostRecent exDbNearest = some (mkRec 6 1 .call 120 6 100) ∧
      get_nearest_strikes exDbNearest (some 2) (some 1) =
        nearestStrikesSpec ((exDbNearest.map fun x => x.strike_price).dedup)
          (mkRec 6 1 .call 120 6 100).stock_price_at_collection
          (toCount (some 2)) (toCount (some 1)) ∧
      get_nearest_strikes exDbNearest (some 2) (some 1) = [95, 105, 110] :=
  ⟨rfl,
    (nearest_strike_selection exDbNearest (some 2) (some 1)).2
      (mkRec 6 1 .call 120 6 100) rfl,
    by rfl⟩

/-! ## Collection engine (`scraper.py`)

Python exceptions are modelled with an explicit result type.  The attributes
of `StockPriceService` are exactly those bound in the class body and its
`__init__`; calling a missing attribute is an `AttributeError`. -/

/-- Result of a Python call: a value or an escaping exception message. -/
inductive PyResult (α : Type)
  | ok (val : α)
  | exn (msg : String)

/-- The `{price, source, timestamp}` payload returned by the price service. -/
structure PriceResult where
  price : ℚ
  source : String

/-- The attribute names defined by class `StockPriceService`
(`stock_price_service.py`): instance attributes set in `__init__` and the
methods of the class body.  `get_price` is not among them. -/
def stockPriceServiceAttrs : List String :=
  ["health", "alpha_vantage_key", "finnhub_key", "alpha_vantage", "finnhub_client",
    "fetch_from_yahoo", "fetch_from_alpha_vantage", "fetch_from_finnhub", "get_live_price"]

/-- Python attribute lookup followed by a call: a missing attribute raises
`AttributeError` no matter what any implementation would do. -/
def attrCall {α : Type} (attrs : List String) (name : String)
    (impl : String → PyResult α) (arg : String) : PyResult α :=
  if attrs.contains name then impl arg
  else .exn ("AttributeError: StockPriceService object has no attribute " ++ name)

/-- The price-lookup step of `_scrape_stock` (scraper.py lines 273-291): the
whole block is wrapped in `try/except Exception as e: raise ValueError(...)`,
so an `AttributeError` from `price_service.get_price(...)`, a `None` result,
or a nonpositive price all surface as the wrapping `ValueError`. -/
def price_lookup_step (impl : String → PyResult (Option PriceResult))
    (ticker : String) : PyResult PriceResult :=
  match attrCall stockPriceServiceAttrs "get_price" impl ticker with
  | .exn e => .exn ("Failed to fetch stock price: " ++ e)
  | .ok none =>
    .exn ("Failed to fetch stock price: All price sources failed, trying database fallback")
  | .ok (some pr) =>
    if pr.price ≤ 0 then .exn ("Failed to fetch stock price: Invalid price")
    else .ok pr

/-- What a successful `_scrape_stock` would produce: contract count, API call
count, source used, and the premium records accumulated for the commit. -/
structure ScrapeOk where
  contracts : ℕ
  api_calls : ℕ
  source : String
  records : List PremiumRecord

/-- `_scrape_stock`: the price-lookup step runs first; only if it succeeds
does the rest of the body (expirations, option chains, record creation —
abstracted as `rest`, universally quantified in the theorems) run. -/
def scrape_stock (impl : String → PyResult (Option PriceResult))
    (rest : PriceResult → PyResult ScrapeOk) (ticker : String) : PyResult ScrapeOk :=
  match price_lookup_step impl ticker with
  | .exn e => .exn e
  | .ok pr => rest pr

/-- Run-level outcome of `scrape_all_stocks` (`ScraperMetrics` plus the
per-stock `ScraperStockLog` rows and the persisted premium records). -/
structure RunOutcome where
  total_stocks : ℕ
  successful_stocks : ℕ
  failed_stocks : ℕ
  total_contracts : ℕ
  stock_errors : List (String × String)
  stock_logs : List (String × Bool × Option String)
  persisted : List PremiumRecord

/-- The per-stock loop of `scrape_all_stocks`: a success increments the
success counters, appends a success log row and commits the stock's records;
an exception increments the failure count, appends the error to the run's
error list and a failed log row, persists nothing, and continues. -/
def scrape_loop (impl : String → PyResult (Option PriceResult))
    (rest : PriceResult → PyResult ScrapeOk) :
    List String → RunOutcome → RunOutcome
  | [], acc => acc
  | t :: ts, acc =>
    match scrape_stock impl rest t with
    | .ok res =>
      scrape_loop impl rest ts
        { acc with
          successful_stocks := acc.successful_stocks + 1
          total_contracts := acc.total_contracts + res.contracts
          stock_logs := acc.stock_logs ++ [(t, true, none)]
          persisted := acc.persisted ++ res.records }
    | .exn e =>
      scrape_loop impl rest ts
        { acc with
          failed_stocks := acc.failed_stocks + 1
          stock_errors := acc.stock_errors ++ [(t, e)]
          stock_logs := acc.stock_logs ++ [(t, false, some e)] }

/-- `YahooFinanceScraper.scrape_all_stocks` over the active-watchlist
snapshot. -/
def scrape_all_stocks (impl : String → PyResult (Option PriceResult))
    (rest : PriceResult → PyResult ScrapeOk) (tickers : List String) : RunOutcome :=
  scrape_loop impl rest tickers
    { total_stocks := tickers.length
      successful_stocks := 0
      failed_stocks := 0
      total_contracts := 0
      stock_errors := []
      stock_logs := []
      persisted := [] }

/-- The error every `_scrape_stock` raises: the wrapped `AttributeError`. -/
def missingGetPriceError : String :=
  "Failed to fetch stock price: AttributeError: StockPriceService object has no attribute get_price"

lemma scrape_stock_always_fails (impl : String → PyResult (Option PriceResult))
    (rest : PriceResult → PyResult ScrapeOk) (t : String) :
    scrape_stock impl rest t = .exn missingGetPriceError :=
  rfl

lemma scrape_loop_all_fail (impl : String → PyResult (Option PriceResult))
    (rest : PriceResult → PyResult ScrapeOk) (ts : List String) (acc : RunOutcome) :
    scrape_loop impl rest ts acc =
      { acc with
        failed_stocks := acc.failed_stocks + ts.length
        stock_errors := acc.stock_errors ++ ts.map (fun t => (t, missingGetPriceError))
        stock_logs := acc.stock_logs ++
          ts.map (fun t => (t, false, some missingGetPriceError)) } := by
  induction ts generalizing acc with
  | nil => simp [scrape_loop]
  | cons t ts ih =>
    simp only [scrape_loop, scrape_stock_always_fails, ih]
    simp [RunOutcome.mk.injEq]
    omega

/-- C1: the scraper calls `get_price` on `StockPriceService`, which defines no
such attribute; consequently, whatever the rest of `_scrape_stock` would do
and whatever `get_price` would have returned, every instrument's price-lookup
step raises, `_scrape_stock` surfaces the wrapping `ValueError`, every
instrument is recorded as failed (error list and per-stock log), and no
premium record is persisted. -/
theorem scraper_get_price_missing (impl : String → PyResult (Option PriceResult))
    (rest : PriceResult → PyResult ScrapeOk) (tickers : List String) :
    stockPriceServiceAttrs.contains "get_price" = false ∧
      (∀ t, scrape_stock impl rest t = .exn missingGetPriceError) ∧
      (scrape_all_stocks impl rest tickers).total_stocks = tickers.length ∧
      (scrape_all_stocks impl rest tickers).failed_stocks = tickers.length ∧
      (scrape_all_stocks impl rest tickers).successful_stocks = 0 ∧
      (scrape_all_stocks impl rest tickers).persisted = [] ∧
      (scrape_all_stocks impl rest tickers).stock_errors =
        tickers.map (fun t => (t, missingGetPriceError)) ∧
      (scrape_all_stocks impl rest tickers).stock_logs =
        tickers.map (fun t => (t, false, some missingGetPriceError)) := by
  refine ⟨rfl, fun t => scrape_stock_always_fails impl rest t, ?_, ?_, ?_, ?_, ?_, ?_⟩ <;>
    rw [scrape_all_stocks, scrape_loop_all_fail] <;> simp

/-! ## Expiry marker (`scraper.py`, `mark_expired_contracts`) -/

/-- The per-record effect of the bulk `UPDATE`: a record past expiry and still
active gets status `expired`; every other record is untouched. -/
def markOne (today : ℤ) (r : PremiumRecord) : PremiumRecord :=
  if r.expiration_date < today ∧ r.contract_status = ContractStatus.active then
    { r with contract_status := ContractStatus.expired }
  else r

/-- `mark_expired_contracts`: bulk status update filtered on
`expiration_date < today AND contract_status = active`; returns the updated
table and the matched row count. -/
def mark_expired_contracts (db : List PremiumRecord) (today : ℤ) :
    List PremiumRecord × ℕ :=
  (db.map (markOne today),
    (db.filter fun r =>
      decide (r.expiration_date < today) &&
        decide (r.contract_status = ContractStatus.active)).length)

/-- Equality of premium records on every field except `contract_status`. -/
def sameExceptStatus (a b : PremiumRecord) : Prop :=
  a.record_id = b.record_id ∧ a.stock_id = b.stock_id ∧ a.option_type = b.option_type ∧
    a.strike_price = b.strike_price ∧ a.expiration_date = b.expiration_date ∧
    a.premium = b.premium ∧ a.stock_price_at_collection = b.stock_price_at_collection ∧
    a.implied_volatility = b.implied_volatility ∧ a.delta = b.delta ∧ a.gamma = b.gamma ∧
    a.theta = b.theta ∧ a.vega = b.vega ∧ a.rho = b.rho ∧ a.volume = b.volume ∧
    a.open_interest = b.open_interest ∧ a.days_to_expiry = b.days_to_expiry ∧
    a.data_source = b.data_source ∧ a.scraper_run_id = b.scraper_run_id ∧
    a.collection_timestamp = b.collection_timestamp

lemma markOne_idem (today : ℤ) (r : PremiumRecord) :
    markOne today (markOne today r) = markOne today r := by
  unfold markOne
  split_ifs with h1 h2 <;> simp_all

lemma markOne_not_matched (today : ℤ) (r : PremiumRecord) :
    (decide ((markOne today r).expiration_date < today) &&
      decide ((markOne today r).contract_status = ContractStatus.active)) = false := by
  unfold markOne
  split_ifs with h1 <;> simp_all

/-- C10: the expiry marker (a) maps every record through `markOne`, which
(b) transitions exactly the still-active records strictly past expiry to
`expired` and changes no other field of any record; and (c) it is idempotent:
an immediate second run leaves the table unchanged and reports zero records
marked. -/
theorem expiry_marker_exact_and_idempotent (db : List PremiumRecord) (today : ℤ) :
    (mark_expired_contracts db today).1 = db.map (markOne today) ∧
      (∀ r, sameExceptStatus r (markOne today r) ∧
        (markOne today r).contract_status =
          (if r.expiration_date < today ∧ r.contract_status = ContractStatus.active
            then ContractStatus.expired else r.contract_status)) ∧
      mark_expired_contracts (mark_expired_contracts db today).1 today =
        ((mark_expired_contracts db today).1, 0) := by
  refine ⟨rfl, fun r => ?_, ?_⟩
  · unfold markOne
    split_ifs <;> exact ⟨⟨rfl, rfl, rfl, rfl, rfl, rfl, rfl, rfl, rfl, rfl, rfl, rfl,
      rfl, rfl, rfl, rfl, rfl, rfl, rfl⟩, rfl⟩
  · unfold mark_expired_contracts
    refine Prod.ext ?_ ?_
    · show (db.map (markOne today)).map (markOne today) = db.map (markOne today)
      rw [List.map_map]
      exact List.map_congr_left fun r _ => markOne_idem today r
    · show ((db.map (markOne today)).filter _).length = 0
      rw [List.length_eq_zero]
      rw [List.filter_eq_nil_iff]
      intro r' hr'
      obtain ⟨r, -, rfl⟩ := List.mem_map.mp hr'
      simp [markOne_not_matched today r]

/-! ## Scheduler initialization (`scheduler.py`) -/

/-- `SchedulerStatus` enum. -/
inductive SchedulerStatus
  | idle
  | running
  | paused
  | error
deriving DecidableEq

/-- The observable state after `SchedulerService.initialize`: the persisted
schedule status and whether the APScheduler scraper job is paused. -/
structure SchedulerInitState where
  scheduler_status : SchedulerStatus
  job_paused : Bool

/-- `SchedulerService.initialize` (lines 101-113): force the persisted status
to `paused` when it is anything else, then `_schedule_scraper_job` adds the
job and pauses it when the status is `paused`. -/
def initSchedulerState (persisted : SchedulerStatus) : SchedulerInitState :=
  let st := if persisted ≠ SchedulerStatus.paused then SchedulerStatus.paused else persisted
  { scheduler_status := st, job_paused := st == SchedulerStatus.paused }

/-- An APScheduler job fires only when it is not paused. -/
def jobFires (job_paused : Bool) : Bool :=
  !job_paused

/-- `SchedulerService.resume`: resume the job and set the status to idle. -/
def resumeScheduler (_s : SchedulerInitState) : SchedulerInitState :=
  { scheduler_status := SchedulerStatus.idle, job_paused := false }

/-- C9: after process-start initialization the persisted scheduler status is
`paused` and the scraper job is paused (hence non-firing), regardless of the
status persisted before the restart; only after an explicit resume does the
job fire again. -/
theorem scheduler_initializes_paused (persisted : SchedulerStatus) :
    (initSchedulerState persisted).scheduler_status = SchedulerStatus.paused ∧
      (initSchedulerState persisted).job_paused = true ∧
      jobFires (initSchedulerState persisted).job_paused = false ∧
      jobFires (resumeScheduler (initSchedulerState persisted)).job_paused = true := by
  cases persisted <;> exact ⟨rfl, rfl, rfl, rfl⟩

end PremiumMeter
